import Mathlib

/-!
Verification of the light-weaver light-propagation core: a shallow embedding of
`src/game/light.py` (the `LightBeam` recursive tracer) and of the intersection and
light-interaction routines of the surface variants in `src/game/objects.py`,
`src/game/objects_checkpoint.py`, `src/game/objects_colorfilter.py` and
`src/game/objects_shadowcreature.py`.  Python floats are modelled as real numbers,
colors as integer RGB triples.
-/

namespace LightWeaver

/-- Colors are RGB 3-tuples of channel values, as in the Python code. -/
abbrev Color := ℤ × ℤ × ℤ

/-- Modelled from the spec: `constants.py` is not part of the sources; §3 of the
spec fixes colors as 3-tuples of channels in [0,255] with WHITE the sentinel
unfiltered color, RED/GREEN/BLUE the primaries and YELLOW/CYAN/MAGENTA the
composites arising from additive filter mixing. -/
def WHITE : Color := (255, 255, 255)

/-- Modelled from the spec: primary red, see `WHITE`. -/
def RED : Color := (255, 0, 0)

/-- Modelled from the spec: primary green, see `WHITE`. -/
def GREEN : Color := (0, 255, 0)

/-- Modelled from the spec: primary blue, see `WHITE`. -/
def BLUE : Color := (0, 0, 255)

/-- Modelled from the spec: additive mix of RED and GREEN, see `WHITE`. -/
def YELLOW : Color := (255, 255, 0)

/-- Modelled from the spec: additive mix of GREEN and BLUE, see `WHITE`. -/
def CYAN : Color := (0, 255, 255)

/-- Modelled from the spec: additive mix of RED and BLUE, see `WHITE`. -/
def MAGENTA : Color := (255, 0, 255)

/-- A color whose three channels all lie in [0,255] (spec §3). -/
def validColor (c : Color) : Prop :=
  0 ≤ c.1 ∧ c.1 ≤ 255 ∧ 0 ≤ c.2.1 ∧ c.2.1 ≤ 255 ∧ 0 ≤ c.2.2 ∧ c.2.2 ≤ 255

instance (c : Color) : Decidable (validColor c) := by
  unfold validColor; infer_instance

/-- The `type` tag of an interaction-result dictionary (`light.py` dispatches on
`result.get('type', 'none')`, so an unrecognized tag behaves like `'none'`). -/
inductive RType where
  | reflect
  | refract
  | filter
  | absorb
  | noneTag
deriving DecidableEq

/-- An interaction-result dictionary as returned by `interact_with_light`.  Each
field other than the type tag may be missing (the Python dictionaries are read
with `result.get`), hence the `Option`s. -/
structure InteractionResult where
  rtype : RType
  direction : Option (ℝ × ℝ)
  color : Option Color
  intensity : Option ℝ

/-- Modelled from the spec: `constants.py` is absent from the sources and spec §6
requires the numeric constants (maximum beam length, reflection budget, fade
rate) to be configurable, so they are grouped in a configuration record. -/
structure Config where
  maxLength : ℝ
  fadeRate : ℝ
  maxReflections : ℕ

/-- Denominator of the 2×2 segment/segment system, `objects.py` line 105/228. -/
def srDen (x1 y1 x2 y2 x3 y3 x4 y4 : ℝ) : ℝ :=
  (y4 - y3) * (x2 - x1) - (x4 - x3) * (y2 - y1)

/-- Segment parameter `ua` of the intersection, `objects.py` line 112/235. -/
noncomputable def srUa (x1 y1 x2 y2 x3 y3 x4 y4 : ℝ) : ℝ :=
  ((x4 - x3) * (y1 - y3) - (y4 - y3) * (x1 - x3)) / srDen x1 y1 x2 y2 x3 y3 x4 y4

/-- Ray parameter `ub` of the intersection, `objects.py` line 113/236. -/
noncomputable def srUb (x1 y1 x2 y2 x3 y3 x4 y4 : ℝ) : ℝ :=
  ((x2 - x1) * (y1 - y3) - (y2 - y1) * (x1 - x3)) / srDen x1 y1 x2 y2 x3 y3 x4 y4

/-- The segment-versus-ray test of `Mirror.intersect_with_ray` (`objects.py`
lines 94-124), which is also, verbatim, the per-edge test inside
`Prism.intersect_with_ray` (lines 222-242): the ray from `(x3,y3)` in direction
`rayDir` is represented by the segment to `(x3,y3) + rayDir * maxLength`, the
2×2 system is solved, and a hit is returned when `0 <= ua <= 1 and ub > 0`. -/
noncomputable def segmentRayHit (x1 y1 x2 y2 x3 y3 : ℝ) (rayDir : ℝ × ℝ)
    (maxLength : ℝ) : Option (ℝ × ℝ) :=
  let x4 := x3 + rayDir.1 * maxLength
  let y4 := y3 + rayDir.2 * maxLength
  if srDen x1 y1 x2 y2 x3 y3 x4 y4 = 0 then none
  else
    let ua := srUa x1 y1 x2 y2 x3 y3 x4 y4
    let ub := srUb x1 y1 x2 y2 x3 y3 x4 y4
    if 0 ≤ ua ∧ ua ≤ 1 ∧ 0 < ub then
      some (x1 + ua * (x2 - x1), y1 + ua * (y2 - y1))
    else none

/-- The circle-versus-ray test shared verbatim by `Checkpoint.intersect_with_ray`
(`objects_checkpoint.py` lines 47-101), `ColorFilter.intersect_with_ray` and
`ShadowCreature.intersect_with_ray`: project the origin-to-center vector onto
the normalized ray, reject when the projection is negative or the closest
approach exceeds the radius, take the near chord intersection, fall back to the
far one when the near one is behind the origin, and return the hit together
with the outward normal `(hit - center) / radius`. -/
noncomputable def circleIntersectWithRay (cx cy radius rayX rayY : ℝ)
    (rayDir : ℝ × ℝ) : Option (ℝ × ℝ × (ℝ × ℝ)) :=
  let ctrX := cx - rayX
  let ctrY := cy - rayY
  let rayLength := Real.sqrt (rayDir.1 ^ 2 + rayDir.2 ^ 2)
  let rnX := rayDir.1 / rayLength
  let rnY := rayDir.2 / rayLength
  let projection := ctrX * rnX + ctrY * rnY
  if projection < 0 then none
  else
    let closestX := rayX + rnX * projection
    let closestY := rayY + rnY * projection
    let distance := Real.sqrt ((closestX - cx) ^ 2 + (closestY - cy) ^ 2)
    if radius < distance then none
    else
      let halfChord := Real.sqrt (radius ^ 2 - distance ^ 2)
      let nearX := closestX - rnX * halfChord
      let nearY := closestY - rnY * halfChord
      let farX := closestX + rnX * halfChord
      let farY := closestY + rnY * halfChord
      let interX := if (nearX - rayX) * rayDir.1 + (nearY - rayY) * rayDir.2 < 0
        then farX else nearX
      let interY := if (nearX - rayX) * rayDir.1 + (nearY - rayY) * rayDir.2 < 0
        then farY else nearY
      if (interX - rayX) * rayDir.1 + (interY - rayY) * rayDir.2 < 0 then none
      else some (interX, interY, ((interX - cx) / radius, (interY - cy) / radius))

/-- Two-argument arctangent, modelling Python's `math.atan2(y, x)` by the
principal argument of the complex number `x + y*i` (both lie in (-π, π]). -/
noncomputable def atan2 (y x : ℝ) : ℝ := Complex.arg ⟨x, y⟩

/-- `Mirror.interact_with_light` (`objects.py` lines 126-141): reflect the
direction about the normal, re-normalize, and return a single `reflect` result
carrying the unchanged color and the intensity value 0.95. -/
noncomputable def mirrorInteract (color : Color) (_hitPoint : ℝ × ℝ)
    (direction normal : ℝ × ℝ) : List InteractionResult :=
  let d := direction.1 * normal.1 + direction.2 * normal.2
  let rx := direction.1 - 2 * d * normal.1
  let ry := direction.2 - 2 * d * normal.2
  let len := Real.sqrt (rx ^ 2 + ry ^ 2)
  [⟨RType.reflect, some (rx / len, ry / len), some color, some 0.95⟩]

/-- `Prism.interact_with_light` (`objects.py` lines 258-326): WHITE light that
is entering (`dot(direction, normal) < 0`) is split into RED/GREEN/BLUE
`refract` results at angle offsets +0.1, 0, -0.1 with intensity value 0.9 each;
all other light yields a single `refract` result preserving the color with
intensity value 0.95. -/
noncomputable def prismInteract (color : Color) (_hitPoint : ℝ × ℝ)
    (direction normal : ℝ × ℝ) : List InteractionResult :=
  if color = WHITE then
    if direction.1 * normal.1 + direction.2 * normal.2 < 0 then
      let redAngle := atan2 direction.2 direction.1 + 0.1
      let greenAngle := atan2 direction.2 direction.1
      let blueAngle := atan2 direction.2 direction.1 - 0.1
      [⟨RType.refract, some (Real.cos redAngle, Real.sin redAngle), some RED, some 0.9⟩,
       ⟨RType.refract, some (Real.cos greenAngle, Real.sin greenAngle), some GREEN, some 0.9⟩,
       ⟨RType.refract, some (Real.cos blueAngle, Real.sin blueAngle), some BLUE, some 0.9⟩]
    else
      let refractedAngle := atan2 direction.2 direction.1
      [⟨RType.refract, some (Real.cos refractedAngle, Real.sin refractedAngle),
        some color, some 0.95⟩]
  else
    let refractedAngle := atan2 direction.2 direction.1
    [⟨RType.refract, some (Real.cos refractedAngle, Real.sin refractedAngle),
      some color, some 0.95⟩]

/-- The color-mixing chain of `ColorFilter.interact_with_light`
(`objects_colorfilter.py` lines 111-147), as a function of the filter's own
color `selfColor` and the incoming `color`. -/
def filteredColor (selfColor color : Color) : Color :=
  if selfColor = WHITE then color
  else if color = WHITE then selfColor
  else if selfColor = RED then
    if color = BLUE then MAGENTA
    else if color = GREEN then YELLOW
    else selfColor
  else if selfColor = GREEN then
    if color = BLUE then CYAN
    else if color = RED then YELLOW
    else selfColor
  else if selfColor = BLUE then
    if color = RED then MAGENTA
    else if color = GREEN then CYAN
    else selfColor
  else
    (min color.1 selfColor.1, min color.2.1 selfColor.2.1, min color.2.2 selfColor.2.2)

/-- `ColorFilter.interact_with_light` (`objects_colorfilter.py` lines 109-154):
one `filter` result with the unchanged direction, the mixed color, and the
intensity value 0.9. -/
def colorFilterInteract (selfColor color : Color) (_hitPoint : ℝ × ℝ)
    (direction _normal : ℝ × ℝ) : List InteractionResult :=
  [⟨RType.filter, some direction, some (filteredColor selfColor color), some 0.9⟩]

/-- `ShadowCreature.interact_with_light` (`objects_shadowcreature.py` lines
139-144): a single `absorb` result with no further fields. -/
def shadowInteract (_color : Color) (_hitPoint : ℝ × ℝ)
    (_direction _normal : ℝ × ℝ) : List InteractionResult :=
  [⟨RType.absorb, none, none, none⟩]

/-- The per-channel closeness test `colors_match` nested inside
`Checkpoint.interact_with_light` (`objects_checkpoint.py` lines 110-114), with
its default threshold 30. -/
def colorsMatch (c1 c2 : Color) : Bool :=
  let threshold : ℤ := 30
  |c1.1 - c2.1| ≤ threshold ∧ |c1.2.1 - c2.2.1| ≤ threshold ∧ |c1.2.2 - c2.2.2| ≤ threshold

/-- The mutable state of a `Checkpoint` (`objects_checkpoint.py` lines 8-27). -/
structure Checkpoint where
  required_color : Color
  activated : Bool
  newly_activated : Bool

/-- A freshly constructed checkpoint: `activated` and `newly_activated` start
out false (`objects_checkpoint.py` lines 13-14). -/
def Checkpoint.init (required : Color) : Checkpoint := ⟨required, false, false⟩

/-- `Checkpoint.interact_with_light` (`objects_checkpoint.py` lines 103-127):
when the incoming color matches the required color within the per-channel
threshold and the checkpoint was not yet activated, set both flags; in every
case return one `filter` result passing the color and direction through with
intensity value 0.95. -/
def checkpointInteract (cp : Checkpoint) (color : Color) (direction : ℝ × ℝ) :
    Checkpoint × List InteractionResult :=
  let cp' := if colorsMatch color cp.required_color then
      (if ¬cp.activated then ⟨cp.required_color, true, true⟩ else cp)
    else cp
  (cp', [⟨RType.filter, some direction, some color, some 0.95⟩])

/-- Folding a sequence of `interact_with_light` calls (color and direction per
call) over a checkpoint's state. -/
def checkpointRun (cp : Checkpoint) (calls : List (Color × (ℝ × ℝ))) : Checkpoint :=
  calls.foldl (fun s call => (checkpointInteract s call.1 call.2).1) cp

/-- The fixed color palette of a `ColorFilter`
(`objects_colorfilter.py` line 15). -/
def available_colors : List Color := [RED, GREEN, BLUE, YELLOW, CYAN, MAGENTA, WHITE]

/-- The mutable state of a `ColorFilter` (`objects_colorfilter.py` lines 8-24). -/
structure ColorFilter where
  color : Color
  color_index : ℕ

/-- `ColorFilter.__init__` (`objects_colorfilter.py` lines 12-16): store the
color and its palette index, index 0 when the color is not in the palette. -/
def ColorFilter.init (color : Color) : ColorFilter :=
  ⟨color, if color ∈ available_colors then available_colors.indexOf color else 0⟩

/-- `ColorFilter.interact` (`objects_colorfilter.py` lines 30-33): advance the
palette index cyclically and take the corresponding palette color. -/
def ColorFilter.cycle (s : ColorFilter) : ColorFilter :=
  let idx := (s.color_index + 1) % available_colors.length
  ⟨available_colors.getD idx WHITE, idx⟩

/-- A surface as seen by the tracer (`light.py` lines 57-77): something that can
be hit-tested against a ray and asked for its light response.  Every concrete
object of the game implements both methods. -/
structure Surface where
  intersect : ℝ → ℝ → ℝ × ℝ → Option (ℝ × ℝ × (ℝ × ℝ))
  interact : Color → ℝ × ℝ → ℝ × ℝ → ℝ × ℝ → List InteractionResult

/-- The collision loop of `LightBeam.update` (`light.py` lines 51-68), with the
position of each object in the collection carried along: walk the objects in
order, compute the Euclidean distance of each reported hit from the beam
origin, and keep the current best only when a later hit is strictly closer
(`if distance < min_distance`). -/
noncomputable def nearestHitAux (x y : ℝ) (d : ℝ × ℝ) :
    List Surface → ℕ → Option (ℕ × Surface × ℝ × ℝ × (ℝ × ℝ) × ℝ) →
    Option (ℕ × Surface × ℝ × ℝ × (ℝ × ℝ) × ℝ)
  | [], _, best => best
  | s :: rest, i, best =>
    let best' := match s.intersect x y d with
      | none => best
      | some (hx, hy, n) =>
        let distance := Real.sqrt ((hx - x) ^ 2 + (hy - y) ^ 2)
        match best with
        | none => some (i, s, hx, hy, n, distance)
        | some (k, s0, bx, by0, bn, minDist) =>
          if distance < minDist then some (i, s, hx, hy, n, distance)
          else some (k, s0, bx, by0, bn, minDist)
    nearestHitAux x y d rest (i + 1) best'

/-- Nearest-hit resolution over the whole surface collection, starting with no
hit and `min_distance = inf` (`light.py` lines 51-54 model the empty
accumulator). -/
noncomputable def nearestHit (objs : List Surface) (x y : ℝ) (d : ℝ × ℝ) :
    Option (ℕ × Surface × ℝ × ℝ × (ℝ × ℝ) × ℝ) :=
  nearestHitAux x y d objs 0 none

/-- The per-beam data of a `LightBeam` (`light.py` lines 7-26): origin,
direction, color, intensity and generation index. -/
structure Beam where
  x : ℝ
  y : ℝ
  dir : ℝ × ℝ
  color : Color
  intensity : ℝ
  count : ℕ

/-- One rendered segment `(x1, y1, x2, y2, color, intensity)`
(`light.py` line 21). -/
structure Segment where
  x1 : ℝ
  y1 : ℝ
  x2 : ℝ
  y2 : ℝ
  color : Color
  intensity : ℝ

/-- The beam tree built by one full recursive trace: the beam's own parameters,
its emitted segments, and its child subtrees. -/
inductive BeamTree where
  | mk : Beam → List Segment → List BeamTree → BeamTree

/-- The beam parameters at the root of a beam tree. -/
def BeamTree.node : BeamTree → Beam
  | .mk b _ _ => b

/-- The segments emitted by the root beam of a beam tree. -/
def BeamTree.segments : BeamTree → List Segment
  | .mk _ segs _ => segs

/-- The child subtrees of a beam tree. -/
def BeamTree.children : BeamTree → List BeamTree
  | .mk _ _ cs => cs

/-- Construction of one child beam from one interaction result (`light.py`
lines 80-134).  A `reflect`, `refract` or `filter` result yields a child at the
hit point with generation index one higher; the intensity is the result's
`intensity` value when present, and otherwise the parent's intensity times the
per-branch default factor (`BEAM_FADE_RATE`, 0.8, 0.9).  An `absorb` result, or
an unrecognized tag, yields no child.  The source supplies no default for a
missing `direction` (and, in the `filter` branch, no default for a missing
`color`); all concrete surfaces always provide them, and the model falls back
to the parent's value to stay total. -/
noncomputable def resultToChildBeam (cfg : Config) (b : Beam) (hx hy : ℝ)
    (r : InteractionResult) : Option Beam :=
  match r.rtype with
  | RType.reflect =>
    some ⟨hx, hy, r.direction.getD b.dir, r.color.getD b.color,
      r.intensity.getD (b.intensity * cfg.fadeRate), b.count + 1⟩
  | RType.refract =>
    some ⟨hx, hy, r.direction.getD b.dir, r.color.getD b.color,
      r.intensity.getD (b.intensity * 0.8), b.count + 1⟩
  | RType.filter =>
    some ⟨hx, hy, r.direction.getD b.dir, r.color.getD b.color,
      r.intensity.getD (b.intensity * 0.9), b.count + 1⟩
  | RType.absorb => none
  | RType.noneTag => none

/-- `LightBeam.update` (`light.py` lines 28-155) as a pure recursive trace.  A
beam over budget emits the single unobstructed maximum-length segment and
stops; otherwise the nearest hit is resolved: no hit emits the maximum-length
segment, and a hit emits the segment to the hit point, invokes the hit
surface's interaction, and recursively traces one child beam per non-absorb
result. -/
noncomputable def trace (cfg : Config) (objs : List Surface) (b : Beam) : BeamTree :=
  if h : cfg.maxReflections ≤ b.count then
    BeamTree.mk b
      [⟨b.x, b.y, b.x + b.dir.1 * cfg.maxLength, b.y + b.dir.2 * cfg.maxLength,
        b.color, b.intensity⟩] []
  else
    match nearestHit objs b.x b.y b.dir with
    | none =>
      BeamTree.mk b
        [⟨b.x, b.y, b.x + b.dir.1 * cfg.maxLength, b.y + b.dir.2 * cfg.maxLength,
          b.color, b.intensity⟩] []
    | some (_k, s, hx, hy, n, _dist) =>
      let results := s.interact b.color (hx, hy) b.dir n
      let childBeams := results.filterMap (resultToChildBeam cfg b hx hy)
      BeamTree.mk b [⟨b.x, b.y, hx, hy, b.color, b.intensity⟩]
        (childBeams.attach.map fun c => trace cfg objs c.1)
termination_by cfg.maxReflections - b.count
decreasing_by
  have hc : c.1.count = b.count + 1 := by
    have hm := c.2
    rw [List.mem_filterMap] at hm
    obtain ⟨r, _, hr⟩ := hm
    obtain ⟨t, dirn, col, inten⟩ := r
    unfold resultToChildBeam at hr
    cases t <;> simp_all <;> rw [hr.symm]
  rw [hc]
  omega

/-- Total number of emitted segments in a beam tree. -/
def segCount : BeamTree → ℕ
  | .mk _ segs children => segs.length + (children.attach.map fun c => segCount c.1).sum
termination_by t => sizeOf t
decreasing_by
  have := List.sizeOf_lt_of_mem c.2
  simp only [BeamTree.mk.sizeOf_spec]
  omega

/-- The color a child beam inherits from an interaction result: the result's
`color` value when present, else the parent's color (`light.py` lines 86, 103,
119 — the `filter` branch supplies no default in the source but every concrete
surface supplies a color). -/
def childColor (r : InteractionResult) (c : Color) : Color := r.color.getD c

/-- The interaction discipline obeyed by every surface variant of the game: at
most three results per interaction; valid input colors give valid child colors;
non-WHITE light never branches (at most one result) and never produces WHITE
children; and WHITE light that does branch produces only non-WHITE children. -/
def TameInteract (f : Color → ℝ × ℝ → ℝ × ℝ → ℝ × ℝ → List InteractionResult) : Prop :=
  ∀ c p d n,
    (f c p d n).length ≤ 3 ∧
    (validColor c → ∀ r ∈ f c p d n, validColor (childColor r c)) ∧
    (validColor c → c ≠ WHITE →
      (f c p d n).length ≤ 1 ∧ ∀ r ∈ f c p d n, childColor r c ≠ WHITE) ∧
    (c = WHITE → 2 ≤ (f c p d n).length → ∀ r ∈ f c p d n, childColor r c ≠ WHITE)

/-- A surface whose light response obeys the game's interaction discipline. -/
def TameSurface (s : Surface) : Prop := TameInteract s.interact

/-- The palette invariant of a `ColorFilter`: the index is in range, the color
is the palette entry at the index, and so the color is a palette color. -/
def colorFilterInv (s : ColorFilter) : Prop :=
  s.color_index < available_colors.length ∧
  available_colors.getD s.color_index WHITE = s.color ∧
  s.color ∈ available_colors

instance (s : ColorFilter) : Decidable (colorFilterInv s) := by
  unfold colorFilterInv; infer_instance

/-- Loop invariant of the collision loop of `LightBeam.update`: after the first
`m` surfaces have been examined, an empty accumulator means none of them
reported a hit, and a non-empty accumulator records an examined surface, its
reported hit point and normal, the hit's true Euclidean distance from the beam
origin, and the facts that no examined surface beats that distance and that
every earlier examined surface is strictly beaten (first-encountered wins
ties). -/
def NearestInv (x y : ℝ) (d : ℝ × ℝ) (objs : List Surface) (m : ℕ)
    (best : Option (ℕ × Surface × ℝ × ℝ × (ℝ × ℝ) × ℝ)) : Prop :=
  (best = none → ∀ j, j < m → ∀ s', objs.get? j = some s' →
    s'.intersect x y d = none) ∧
  (∀ k s hx hy n dist, best = some (k, s, hx, hy, n, dist) →
    k < m ∧ objs.get? k = some s ∧ s.intersect x y d = some (hx, hy, n) ∧
    dist = Real.sqrt ((hx - x) ^ 2 + (hy - y) ^ 2) ∧
    (∀ j, j < m → ∀ s', objs.get? j = some s' →
      ∀ hx' hy' n', s'.intersect x y d = some (hx', hy', n') →
        dist ≤ Real.sqrt ((hx' - x) ^ 2 + (hy' - y) ^ 2) ∧
        (j < k → dist < Real.sqrt ((hx' - x) ^ 2 + (hy' - y) ^ 2))))

/-- The root beam parameters of a trace are the input beam's parameters. -/
theorem trace_node (cfg : Config) (objs : List Surface) (b : Beam) :
    (trace cfg objs b).node = b := by
  rw [trace.eq_def]
  split
  · rfl
  · split <;> rfl

/-- State effect of one `Checkpoint.interact_with_light` call, as boolean
equations: the required color never changes, `activated` gains the match bit,
and `newly_activated` gains the match bit only when not yet activated. -/
theorem checkpointInteract_state (s : Checkpoint) (c : Color) (d : ℝ × ℝ) :
    (checkpointInteract s c d).1.required_color = s.required_color ∧
    (checkpointInteract s c d).1.activated
      = (s.activated || colorsMatch c s.required_color) ∧
    (checkpointInteract s c d).1.newly_activated
      = (s.newly_activated || (!s.activated && colorsMatch c s.required_color)) := by
  unfold checkpointInteract
  cases hm : colorsMatch c s.required_color
  · simp [hm]
  · cases ha : s.activated <;> simp [hm, ha]

set_option maxHeartbeats 1000000 in
/-- State of a checkpoint after a sequence of `interact_with_light` calls:
the required color is unchanged, `activated` holds exactly when it held before
or some call matched, and `newly_activated` holds exactly when it held before
or the checkpoint was unactivated and some call matched. -/
theorem checkpointRun_spec (req : Color) (l : List (Color × (ℝ × ℝ))) :
    ∀ s : Checkpoint, s.required_color = req →
    (checkpointRun s l).required_color = req ∧
    ((checkpointRun s l).activated = true ↔
      (s.activated = true ∨ ∃ p ∈ l, colorsMatch p.1 req = true)) ∧
    ((checkpointRun s l).newly_activated = true ↔
      (s.newly_activated = true ∨
        (s.activated = false ∧ ∃ p ∈ l, colorsMatch p.1 req = true))) := by
  induction l with
  | nil => intro s hs; simp [checkpointRun, hs]
  | cons p rest ih =>
    intro s hs
    have hstep : checkpointRun s (p :: rest)
        = checkpointRun (checkpointInteract s p.1 p.2).1 rest := rfl
    obtain ⟨e1, e2, e3⟩ := checkpointInteract_state s p.1 p.2
    obtain ⟨h1, h2, h3⟩ := ih (checkpointInteract s p.1 p.2).1 (by rw [e1, hs])
    rw [hstep]
    refine ⟨h1, ?_, ?_⟩
    · rw [h2, e2, hs]
      simp only [Bool.or_eq_true, List.exists_mem_cons_iff]
      tauto
    · rw [h3, e3, e2, hs]
      simp only [Bool.or_eq_true, Bool.and_eq_true, Bool.not_eq_true',
        Bool.or_eq_false_iff, List.exists_mem_cons_iff]
      by_cases hm : colorsMatch p.1 req = true <;> simp [hm]

/-- C5: starting from `activated = false`, a checkpoint's `activated` flag is
set exactly when some call in the processed prefix matched the required color
within the per-channel tolerance of 30, so it transitions false to true at the
first matching call and never back; the one-shot `newly_activated` flag always
equals `activated` along such a run, so it too is raised exactly at the first
matching call, and a call on an already-activated checkpoint leaves the state
untouched (nothing is re-raised); and every call, matching or not, returns
exactly one `filter` result with the direction unchanged and intensity value
0.95. -/
theorem c5_checkpoint_one_shot (req : Color) (calls : List (Color × (ℝ × ℝ))) :
    (∀ k : ℕ,
      ((checkpointRun (Checkpoint.init req) (calls.take k)).activated = true ↔
        ∃ p ∈ calls.take k, colorsMatch p.1 req = true) ∧
      (checkpointRun (Checkpoint.init req) (calls.take k)).newly_activated =
        (checkpointRun (Checkpoint.init req) (calls.take k)).activated) ∧
    (∀ s : Checkpoint, s.activated = true →
      ∀ c d, (checkpointInteract s c d).1 = s) ∧
    (∀ (s : Checkpoint) (c : Color) (d : ℝ × ℝ), (checkpointInteract s c d).2 =
      [⟨RType.filter, some d, some c, some 0.95⟩]) := by
  refine ⟨fun k => ?_, ?_, fun s c d => rfl⟩
  · obtain ⟨h1, h2, h3⟩ := checkpointRun_spec req (calls.take k) (Checkpoint.init req) rfl
    have hact : (Checkpoint.init req).activated = false := rfl
    have hnew : (Checkpoint.init req).newly_activated = false := rfl
    rw [hact] at h2
    rw [hnew, hact] at h3
    simp only [Bool.false_eq_true, false_or, eq_self_iff_true, true_and] at h2 h3
    refine ⟨h2, ?_⟩
    cases hx : (checkpointRun (Checkpoint.init req) (calls.take k)).activated <;>
      cases hy : (checkpointRun (Checkpoint.init req) (calls.take k)).newly_activated
    · rfl
    · exact absurd (h2.mpr (h3.mp hy)) (by rw [hx]; exact Bool.false_ne_true)
    · exact absurd (h3.mpr (h2.mp hx)) (by rw [hy]; exact Bool.false_ne_true)
    · rfl
  · intro s hs c d
    simp [checkpointInteract, hs]

/-- C10: a `ColorFilter` constructed with any palette color satisfies the
palette invariant (index in range, color equal to the palette entry at the
index, color a member of the palette), and the invariant is preserved by every
`interact` call, which advances the color cyclically through the palette,
wrapping from WHITE back to RED. -/
theorem c10_palette_invariant :
    (∀ c ∈ available_colors, colorFilterInv (ColorFilter.init c)) ∧
    (∀ s : ColorFilter, colorFilterInv s →
      colorFilterInv s.cycle ∧
      s.cycle.color_index = (s.color_index + 1) % available_colors.length ∧
      (s.color = WHITE → s.cycle.color = RED)) := by
  constructor
  · decide
  · rintro ⟨c, i⟩ ⟨hi, hcol, hmem⟩
    simp only [available_colors, List.length_cons, List.length_nil] at hi
    interval_cases i <;> simp only [available_colors, List.getD_cons_zero,
      List.getD_cons_succ] at hcol <;> subst hcol <;> decide

/-- Witness for C10 at a concrete input: the filter constructed with WHITE
satisfies the invariant and cycles to RED. -/
theorem c10_witness :
    colorFilterInv (ColorFilter.init WHITE) ∧ (ColorFilter.init WHITE).cycle.color = RED := by
  have h1 := c10_palette_invariant.1 WHITE (by decide)
  have h2 := c10_palette_invariant.2 (ColorFilter.init WHITE) h1
  exact ⟨h1, h2.2.2 rfl⟩

/-- Counterexample for C4: a RED filter hit by CYAN light returns the filter's
color RED, whereas the per-channel minimum of CYAN and RED is black (0,0,0), so
the claim's "per-channel minimum in every remaining case" fails. -/
theorem c4_counterexample :
    filteredColor RED CYAN = RED ∧
    (min CYAN.1 RED.1, min CYAN.2.1 RED.2.1, min CYAN.2.2 RED.2.2)
      = ((0 : ℤ), (0 : ℤ), (0 : ℤ)) ∧
    filteredColor RED CYAN ≠ ((0 : ℤ), (0 : ℤ), (0 : ℤ)) := by
  refine ⟨by decide, by decide, by decide⟩

/-- C4 as amended: `ColorFilter.interact_with_light` returns exactly one
`filter` result with the direction unchanged and intensity value 0.9, whose
color is the incoming color for a WHITE filter, the filter's color for WHITE
incoming light, the fixed additive pairings MAGENTA/YELLOW/CYAN when the filter
color and the incoming color are two distinct primaries, the filter's own color
when the filter color is a primary and the incoming color is any other
non-WHITE color, and the per-channel minimum only when the filter color is
neither WHITE nor a primary and the incoming color is not WHITE. -/
theorem c4_filter_amended (fc c : Color) (hp d n : ℝ × ℝ) :
    colorFilterInteract fc c hp d n
      = [⟨RType.filter, some d, some (filteredColor fc c), some 0.9⟩] ∧
    (fc = WHITE → filteredColor fc c = c) ∧
    (fc ≠ WHITE → c = WHITE → filteredColor fc c = fc) ∧
    (fc = RED → c = BLUE → filteredColor fc c = MAGENTA) ∧
    (fc = RED → c = GREEN → filteredColor fc c = YELLOW) ∧
    (fc = GREEN → c = BLUE → filteredColor fc c = CYAN) ∧
    (fc = GREEN → c = RED → filteredColor fc c = YELLOW) ∧
    (fc = BLUE → c = RED → filteredColor fc c = MAGENTA) ∧
    (fc = BLUE → c = GREEN → filteredColor fc c = CYAN) ∧
    (fc = RED → c ≠ WHITE → c ≠ BLUE → c ≠ GREEN → filteredColor fc c = RED) ∧
    (fc = GREEN → c ≠ WHITE → c ≠ BLUE → c ≠ RED → filteredColor fc c = GREEN) ∧
    (fc = BLUE → c ≠ WHITE → c ≠ RED → c ≠ GREEN → filteredColor fc c = BLUE) ∧
    (fc ≠ WHITE → fc ≠ RED → fc ≠ GREEN → fc ≠ BLUE → c ≠ WHITE →
      filteredColor fc c = (min c.1 fc.1, min c.2.1 fc.2.1, min c.2.2 fc.2.2)) := by
  refine ⟨rfl, ?_, ?_, ?_, ?_, ?_, ?_, ?_, ?_, ?_, ?_, ?_, ?_⟩
  · intro h; subst h; unfold filteredColor; rw [if_pos rfl]
  · intro h1 h2; subst h2; unfold filteredColor; rw [if_neg h1, if_pos rfl]
  · intro h1 h2; subst h1; subst h2; decide
  · intro h1 h2; subst h1; subst h2; decide
  · intro h1 h2; subst h1; subst h2; decide
  · intro h1 h2; subst h1; subst h2; decide
  · intro h1 h2; subst h1; subst h2; decide
  · intro h1 h2; subst h1; subst h2; decide
  · intro h1 h2 h3 h4; subst h1; unfold filteredColor
    rw [if_neg (by decide), if_neg h2, if_pos rfl, if_neg h3, if_neg h4]
  · intro h1 h2 h3 h4; subst h1; unfold filteredColor
    rw [if_neg (by decide), if_neg h2, if_neg (by decide), if_pos rfl, if_neg h3, if_neg h4]
  · intro h1 h2 h3 h4; subst h1; unfold filteredColor
    rw [if_neg (by decide), if_neg h2, if_neg (by decide), if_neg (by decide),
      if_pos rfl, if_neg h3, if_neg h4]
  · intro h1 h2 h3 h4 h5; unfold filteredColor
    rw [if_neg h1, if_neg h5, if_neg h2, if_neg h3, if_neg h4]

/-- Witness for C4's amended theorem at a concrete input: a RED filter hit by
BLUE light yields one `filter` result colored MAGENTA with intensity 0.9. -/
theorem c4_witness :
    colorFilterInteract RED BLUE (0, 0) (1, 0) (0, 1)
      = [⟨RType.filter, some (1, 0), some (filteredColor RED BLUE), some 0.9⟩] ∧
    filteredColor RED BLUE = MAGENTA := by
  have h := c4_filter_amended RED BLUE (0, 0) (1, 0) (0, 1)
  exact ⟨h.1, h.2.2.2.1 rfl rfl⟩

/-- C2 as amended: the segment-versus-ray test returns no-hit exactly when the
determinant is zero, the segment parameter falls outside [0,1], or the ray
parameter is not strictly positive; the maximum beam length only scales the ray
parametrization and is not an upper cutoff (`ub <= 1` is never checked). -/
theorem c2_segment_ray_characterization (x1 y1 x2 y2 x3 y3 dx dy L : ℝ) :
    segmentRayHit x1 y1 x2 y2 x3 y3 (dx, dy) L = none ↔
      (srDen x1 y1 x2 y2 x3 y3 (x3 + dx * L) (y3 + dy * L) = 0 ∨
       ¬(0 ≤ srUa x1 y1 x2 y2 x3 y3 (x3 + dx * L) (y3 + dy * L) ∧
         srUa x1 y1 x2 y2 x3 y3 (x3 + dx * L) (y3 + dy * L) ≤ 1 ∧
         0 < srUb x1 y1 x2 y2 x3 y3 (x3 + dx * L) (y3 + dy * L))) := by
  simp only [segmentRayHit]
  split_ifs with h1 h2
  · simp [h1]
  · simp [h1, h2]
  · simp [h1, h2]

/-- Counterexample for C2: with maximum beam length 100, a vertical segment at
x = 200 crossing the horizontal ray from the origin is reported as a hit at
(200, 0), a point at Euclidean distance 200 > 100 from the ray origin, so the
routine does report intersection points farther than the maximum beam length. -/
theorem c2_counterexample :
    segmentRayHit 200 (-1) 200 1 0 0 (1, 0) 100 = some (200, 0) ∧
    Real.sqrt ((200 - 0) ^ 2 + (0 - 0) ^ 2) > 100 := by
  constructor
  · norm_num [segmentRayHit, srUa, srUb, srDen]
  · have h : Real.sqrt ((200 - 0) ^ 2 + (0 - 0) ^ 2) = 200 := by
      rw [show ((200 : ℝ) - 0) ^ 2 + (0 - 0) ^ 2 = 200 ^ 2 by norm_num]
      exact Real.sqrt_sq (by norm_num)
    rw [h]; norm_num

/-- Unfolding of `trace` for a beam at or over the reflection budget
(`light.py` lines 46-48). -/
theorem trace_budget (cfg : Config) (objs : List Surface) (b : Beam)
    (h : cfg.maxReflections ≤ b.count) :
    trace cfg objs b = BeamTree.mk b
      [⟨b.x, b.y, b.x + b.dir.1 * cfg.maxLength, b.y + b.dir.2 * cfg.maxLength,
        b.color, b.intensity⟩] [] := by
  rw [trace.eq_def, dif_pos h]

/-- Unfolding of `trace` when no surface reports a hit
(`light.py` lines 153-155). -/
theorem trace_nohit (cfg : Config) (objs : List Surface) (b : Beam)
    (h : ¬ cfg.maxReflections ≤ b.count)
    (hnh : nearestHit objs b.x b.y b.dir = none) :
    trace cfg objs b = BeamTree.mk b
      [⟨b.x, b.y, b.x + b.dir.1 * cfg.maxLength, b.y + b.dir.2 * cfg.maxLength,
        b.color, b.intensity⟩] [] := by
  rw [trace.eq_def, dif_neg h, hnh]

/-- Unfolding of `trace` when the nearest-hit resolution selects a surface
(`light.py` lines 70-134). -/
theorem trace_hit (cfg : Config) (objs : List Surface) (b : Beam) (k : ℕ)
    (s : Surface) (hx hy : ℝ) (n : ℝ × ℝ) (dist : ℝ)
    (h : ¬ cfg.maxReflections ≤ b.count)
    (hnh : nearestHit objs b.x b.y b.dir = some (k, s, hx, hy, n, dist)) :
    trace cfg objs b = BeamTree.mk b [⟨b.x, b.y, hx, hy, b.color, b.intensity⟩]
      (((s.interact b.color (hx, hy) b.dir n).filterMap
        (resultToChildBeam cfg b hx hy)).attach.map fun c => trace cfg objs c.1) := by
  rw [trace.eq_def, dif_neg h, hnh]

/-- Every child subtree of a trace carries the parent's generation index plus
one (`light.py` lines 94, 111, 127, 149). -/
theorem trace_children_count (cfg : Config) (objs : List Surface) (b : Beam) :
    ∀ t ∈ (trace cfg objs b).children, t.node.count = b.count + 1 := by
  intro t ht
  by_cases h : cfg.maxReflections ≤ b.count
  · rw [trace_budget cfg objs b h] at ht
    simp [BeamTree.children] at ht
  · cases hnh : nearestHit objs b.x b.y b.dir with
    | none =>
      rw [trace_nohit cfg objs b h hnh] at ht
      simp [BeamTree.children] at ht
    | some v =>
      obtain ⟨k, s, hx, hy, n, dist⟩ := v
      rw [trace_hit cfg objs b k s hx hy n dist h hnh] at ht
      simp only [BeamTree.children, List.mem_map] at ht
      obtain ⟨c, hc, rfl⟩ := ht
      rw [trace_node]
      have hm : c.1 ∈ (s.interact b.color (hx, hy) b.dir n).filterMap
          (resultToChildBeam cfg b hx hy) := c.2
      rw [List.mem_filterMap] at hm
      obtain ⟨r, _, hr⟩ := hm
      obtain ⟨ty, dirn, col, inten⟩ := r
      unfold resultToChildBeam at hr
      cases ty <;> simp_all <;> rw [hr.symm]

/-- C6: a beam whose reflection count is at or over the budget emits exactly
one segment from its origin to the unobstructed maximum-length endpoint and
spawns no children; its output does not depend on the surface collection at all
(no surface is queried); and every child beam of any trace carries its parent's
reflection count plus one, which is what makes the recursion well-founded. -/
theorem c6_budget_stop (cfg : Config) (objs : List Surface) (b : Beam)
    (h : cfg.maxReflections ≤ b.count) :
    trace cfg objs b = BeamTree.mk b
      [⟨b.x, b.y, b.x + b.dir.1 * cfg.maxLength, b.y + b.dir.2 * cfg.maxLength,
        b.color, b.intensity⟩] [] ∧
    (∀ objs' : List Surface, trace cfg objs' b = trace cfg objs b) ∧
    (∀ (objs' : List Surface) (b' : Beam), ∀ t ∈ (trace cfg objs' b').children,
      t.node.count = b'.count + 1) := by
  refine ⟨trace_budget cfg objs b h, fun objs' => ?_, fun objs' b' => trace_children_count cfg objs' b'⟩
  rw [trace_budget cfg objs' b h, trace_budget cfg objs b h]

/-- Witness for C6 at a concrete input: with a zero reflection budget, the root
beam immediately emits its single full-length segment and no children. -/
theorem c6_witness :
    trace ⟨100, 0.9, 0⟩ [] ⟨0, 0, (1, 0), WHITE, 1, 0⟩ =
      BeamTree.mk ⟨0, 0, (1, 0), WHITE, 1, 0⟩
        [⟨0, 0, 0 + (1 : ℝ) * 100, 0 + (0 : ℝ) * 100, WHITE, 1⟩] [] :=
  (c6_budget_stop ⟨100, 0.9, 0⟩ [] ⟨0, 0, (1, 0), WHITE, 1, 0⟩ (Nat.le_refl 0)).1

/-- C3: a prism hit by WHITE light that is entering (`dot(direction, normal) <
0`) returns exactly the three `refract` results colored RED, GREEN, BLUE at
direction angles offset by +0.1, 0, -0.1 radians from the incoming direction's
angle, each with intensity field 0.9; in every other case (non-WHITE color, or
WHITE exiting) it returns exactly one `refract` result preserving the incoming
color with intensity field 0.95. -/
theorem c3_prism_split (c : Color) (hp : ℝ × ℝ) (d n : ℝ × ℝ) :
    (c = WHITE → d.1 * n.1 + d.2 * n.2 < 0 →
      prismInteract c hp d n =
        [⟨RType.refract, some (Real.cos (atan2 d.2 d.1 + 0.1),
            Real.sin (atan2 d.2 d.1 + 0.1)), some RED, some 0.9⟩,
         ⟨RType.refract, some (Real.cos (atan2 d.2 d.1),
            Real.sin (atan2 d.2 d.1)), some GREEN, some 0.9⟩,
         ⟨RType.refract, some (Real.cos (atan2 d.2 d.1 - 0.1),
            Real.sin (atan2 d.2 d.1 - 0.1)), some BLUE, some 0.9⟩]) ∧
    (c ≠ WHITE ∨ 0 ≤ d.1 * n.1 + d.2 * n.2 →
      prismInteract c hp d n =
        [⟨RType.refract, some (Real.cos (atan2 d.2 d.1),
            Real.sin (atan2 d.2 d.1)), some c, some 0.95⟩]) := by
  constructor
  · intro h1 h2
    subst h1
    unfold prismInteract
    rw [if_pos rfl, if_pos h2]
  · intro h
    unfold prismInteract
    rcases h with h | h
    · rw [if_neg h]
    · by_cases hc : c = WHITE
      · subst hc
        rw [if_pos rfl, if_neg (not_lt.mpr h)]
      · rw [if_neg hc]

/-- Witness for C3 at concrete inputs: WHITE light entering a surface with
normal (-1,0) splits into the three colored refractions, and RED light yields
the single color-preserving refraction. -/
theorem c3_witness :
    prismInteract WHITE (0, 0) (1, 0) (-1, 0) =
      [⟨RType.refract, some (Real.cos (atan2 0 1 + 0.1),
          Real.sin (atan2 0 1 + 0.1)), some RED, some 0.9⟩,
       ⟨RType.refract, some (Real.cos (atan2 0 1),
          Real.sin (atan2 0 1)), some GREEN, some 0.9⟩,
       ⟨RType.refract, some (Real.cos (atan2 0 1 - 0.1),
          Real.sin (atan2 0 1 - 0.1)), some BLUE, some 0.9⟩] ∧
    prismInteract RED (0, 0) (1, 0) (-1, 0) =
      [⟨RType.refract, some (Real.cos (atan2 0 1),
          Real.sin (atan2 0 1)), some RED, some 0.95⟩] := by
  constructor
  · exact (c3_prism_split WHITE (0, 0) (1, 0) (-1, 0)).1 rfl (by norm_num)
  · exact (c3_prism_split RED (0, 0) (1, 0) (-1, 0)).2 (Or.inl (by decide))

/-- C1 as amended: the child beam constructed from an interaction result takes
the result's `intensity` value verbatim whenever that value is present — it is
not multiplied by the parent beam's intensity; the parent's intensity enters
only through the per-branch default factors used when the result carries no
intensity value. -/
theorem c1_child_intensity_amended (cfg : Config) (b : Beam) (hx hy : ℝ)
    (r : InteractionResult) (c : Beam)
    (h : resultToChildBeam cfg b hx hy r = some c) :
    (∀ v : ℝ, r.intensity = some v → c.intensity = v) ∧
    (r.intensity = none → r.rtype = RType.reflect →
      c.intensity = b.intensity * cfg.fadeRate) ∧
    (r.intensity = none → r.rtype = RType.refract →
      c.intensity = b.intensity * 0.8) ∧
    (r.intensity = none → r.rtype = RType.filter →
      c.intensity = b.intensity * 0.9) := by
  obtain ⟨ty, dirn, col, inten⟩ := r
  unfold resultToChildBeam at h
  cases ty <;> cases inten <;> simp_all <;> rw [h.symm]

/-- Witness for C1's amended theorem at a concrete input: a `reflect` result
with intensity value 0.95 makes the child's intensity 0.95 itself. -/
theorem c1_witness :
    (⟨1, 0, (-1, 0), RED, (0.95 : ℝ), 1⟩ : Beam).intensity = 0.95 := by
  have h := c1_child_intensity_amended ⟨100, 0.9, 5⟩ ⟨0, 0, (1, 0), RED, 1/2, 0⟩ 1 0
    ⟨RType.reflect, some (-1, 0), some RED, some 0.95⟩ ⟨1, 0, (-1, 0), RED, 0.95, 1⟩ rfl
  exact h.1 0.95 rfl

/-- Counterexample for C1: a root beam of intensity 1/2 reflected by a mirror
spawns a child of intensity 0.95 (the mirror result's intensity field taken
verbatim), not 1/2 × 0.95 as the claim's multiplicative-decay rule demands. -/
theorem c1_counterexample :
    ((trace ⟨100, 0.9, 5⟩ [⟨fun _ _ _ => some (1, 0, (-1, 0)), mirrorInteract⟩]
        ⟨0, 0, (1, 0), RED, 1/2, 0⟩).children.map fun t => t.node.intensity)
      = [(0.95 : ℝ)] ∧
    (0.95 : ℝ) ≠ (1/2 : ℝ) * 0.95 := by
  constructor
  · rw [trace_hit ⟨100, 0.9, 5⟩ [⟨fun _ _ _ => some (1, 0, (-1, 0)), mirrorInteract⟩]
      ⟨0, 0, (1, 0), RED, 1/2, 0⟩ 0 ⟨fun _ _ _ => some (1, 0, (-1, 0)), mirrorInteract⟩
      1 0 (-1, 0) (Real.sqrt ((1 - 0) ^ 2 + (0 - 0) ^ 2)) (by norm_num) rfl]
    simp only [BeamTree.children, List.map_map, Function.comp_def, trace_node]
    rw [List.attach_map_coe]
    rfl
  · norm_num

/-- The collision-loop invariant is preserved from any starting index to the
end of the surface collection. -/
theorem nearestHitAux_inv (x y : ℝ) (d : ℝ × ℝ) (objs : List Surface) :
    ∀ (rest : List Surface) (i : ℕ), rest = List.drop i objs →
      ∀ best, NearestInv x y d objs i best →
        NearestInv x y d objs objs.length (nearestHitAux x y d rest i best) := by
  intro rest
  induction rest with
  | nil =>
    intro i hdrop best hinv
    have hle : objs.length ≤ i := List.drop_eq_nil_iff_le.mp hdrop.symm
    simp only [nearestHitAux]
    obtain ⟨h1, h2⟩ := hinv
    constructor
    · intro hb j hj s' hg
      exact h1 hb j (lt_of_lt_of_le hj hle) s' hg
    · intro k s hx hy n dist hb
      obtain ⟨hk, hg, hi2, hd2, hall⟩ := h2 k s hx hy n dist hb
      have hklen : k < objs.length := by
        by_contra hcon
        rw [not_lt] at hcon
        rw [List.get?_eq_none.mpr hcon] at hg
        exact Option.noConfusion hg
      exact ⟨hklen, hg, hi2, hd2,
        fun j hj s' hg' hx' hy' n' hi' =>
          hall j (lt_of_lt_of_le hj hle) s' hg' hx' hy' n' hi'⟩
  | cons hd tl ih =>
    intro i hdrop best hinv
    have hget : objs.get? i = some hd := by
      have h0 := List.get?_drop objs i 0
      rw [← hdrop] at h0
      simpa using h0.symm
    have hdrop' : tl = List.drop (i + 1) objs := by
      calc tl = List.drop 1 (hd :: tl) := rfl
        _ = List.drop 1 (List.drop i objs) := by rw [← hdrop]
        _ = List.drop (i + 1) objs := List.drop_drop 1 i objs
    simp only [nearestHitAux]
    apply ih (i + 1) hdrop'
    cases hint : hd.intersect x y d with
    | none =>
      simp only [hint]
      obtain ⟨h1, h2⟩ := hinv
      constructor
      · intro hb j hj s' hg
        rcases Nat.lt_succ_iff_lt_or_eq.mp hj with hj' | rfl
        · exact h1 hb j hj' s' hg
        · rw [hget] at hg; cases hg; exact hint
      · intro k s hx hy n dist hb
        obtain ⟨hk, hgk, hik, hdk, hall⟩ := h2 k s hx hy n dist hb
        refine ⟨Nat.lt_succ_of_lt hk, hgk, hik, hdk, ?_⟩
        intro j hj s' hg hx' hy' n' hi'
        rcases Nat.lt_succ_iff_lt_or_eq.mp hj with hj' | rfl
        · exact hall j hj' s' hg hx' hy' n' hi'
        · rw [hget] at hg; cases hg; rw [hint] at hi'; cases hi'
    | some v =>
      obtain ⟨hx, hy, n⟩ := v
      obtain ⟨h1, h2⟩ := hinv
      cases best with
      | none =>
        simp only [hint]
        constructor
        · intro hb; cases hb
        · intro k s hx0 hy0 n0 dist hb
          injection hb with h'
          simp only [Prod.mk.injEq] at h'
          obtain ⟨rfl, rfl, rfl, rfl, rfl, rfl⟩ := h'
          refine ⟨Nat.lt_succ_self i, hget, hint, rfl, ?_⟩
          intro j hj s' hg hx' hy' n' hi'
          rcases Nat.lt_succ_iff_lt_or_eq.mp hj with hj' | rfl
          · rw [h1 rfl j hj' s' hg] at hi'; cases hi'
          · rw [hget] at hg; cases hg
            rw [hint] at hi'
            injection hi' with hiv
            simp only [Prod.mk.injEq] at hiv
            obtain ⟨rfl, rfl, rfl⟩ := hiv
            exact ⟨le_refl _, fun hlt => absurd hlt (lt_irrefl _)⟩
      | some b0 =>
        obtain ⟨k0, s0, bx, by0, bn, minDist⟩ := b0
        obtain ⟨hk0, hg0, hi0, hd0, hall0⟩ := h2 k0 s0 bx by0 bn minDist rfl
        simp only [hint]
        by_cases hlt : Real.sqrt ((hx - x) ^ 2 + (hy - y) ^ 2) < minDist
        · rw [if_pos hlt]
          constructor
          · intro hb; cases hb
          · intro k s hx0 hy0 n0 dist hb
            injection hb with h'
            simp only [Prod.mk.injEq] at h'
            obtain ⟨rfl, rfl, rfl, rfl, rfl, rfl⟩ := h'
            refine ⟨Nat.lt_succ_self i, hget, hint, rfl, ?_⟩
            intro j hj s' hg hx' hy' n' hi'
            rcases Nat.lt_succ_iff_lt_or_eq.mp hj with hj' | rfl
            · have hj2 := hall0 j hj' s' hg hx' hy' n' hi'
              exact ⟨le_of_lt (lt_of_lt_of_le hlt hj2.1),
                fun _ => lt_of_lt_of_le hlt hj2.1⟩
            · rw [hget] at hg; cases hg
              rw [hint] at hi'
              injection hi' with hiv
              simp only [Prod.mk.injEq] at hiv
              obtain ⟨rfl, rfl, rfl⟩ := hiv
              exact ⟨le_refl _, fun hc => absurd hc (lt_irrefl _)⟩
        · rw [if_neg hlt]
          constructor
          · intro hb; cases hb
          · intro k s hx0 hy0 n0 dist hb
            injection hb with h'
            simp only [Prod.mk.injEq] at h'
            obtain ⟨rfl, rfl, rfl, rfl, rfl, rfl⟩ := h'
            refine ⟨Nat.lt_succ_of_lt hk0, hg0, hi0, hd0, ?_⟩
            intro j hj s' hg hx' hy' n' hi'
            rcases Nat.lt_succ_iff_lt_or_eq.mp hj with hj' | rfl
            · exact hall0 j hj' s' hg hx' hy' n' hi'
            · rw [hget] at hg; cases hg
              rw [hint] at hi'
              injection hi' with hiv
              simp only [Prod.mk.injEq] at hiv
              obtain ⟨rfl, rfl, rfl⟩ := hiv
              exact ⟨not_lt.mp hlt, fun hc => absurd hc (Nat.lt_asymm hk0)⟩

/-- C7: when the collision loop of `LightBeam.update` selects a surface, that
surface reported the hit point and normal handed to the interaction, the
recorded distance is the hit's Euclidean distance from the beam origin, no
surface in the collection reports a strictly closer hit, and every surface
earlier in the collection order that reports a hit is strictly farther — so at
exactly equal distances the first-encountered surface wins. -/
theorem c7_nearest_hit (objs : List Surface) (x y : ℝ) (d : ℝ × ℝ)
    (k : ℕ) (s : Surface) (hx hy : ℝ) (n : ℝ × ℝ) (dist : ℝ)
    (h : nearestHit objs x y d = some (k, s, hx, hy, n, dist)) :
    objs.get? k = some s ∧
    s.intersect x y d = some (hx, hy, n) ∧
    dist = Real.sqrt ((hx - x) ^ 2 + (hy - y) ^ 2) ∧
    (∀ j s', objs.get? j = some s' →
      ∀ hx' hy' n', s'.intersect x y d = some (hx', hy', n') →
        dist ≤ Real.sqrt ((hx' - x) ^ 2 + (hy' - y) ^ 2) ∧
        (j < k → dist < Real.sqrt ((hx' - x) ^ 2 + (hy' - y) ^ 2))) := by
  have hbase : NearestInv x y d objs 0 none := by
    constructor
    · intro _ j hj
      exact absurd hj (Nat.not_lt_zero j)
    · intro k0 s0 hx0 hy0 n0 dist0 hb
      cases hb
  have hinv := nearestHitAux_inv x y d objs objs 0 rfl none hbase
  obtain ⟨hk, hg, hi2, hd2, hall⟩ := hinv.2 k s hx hy n dist h
  refine ⟨hg, hi2, hd2, ?_⟩
  intro j s' hg' hx' hy' n' hi'
  have hjlen : j < objs.length := by
    by_contra hcon
    rw [not_lt] at hcon
    rw [List.get?_eq_none.mpr hcon] at hg'
    exact Option.noConfusion hg'
  exact hall j hjlen s' hg' hx' hy' n' hi'

/-- Witness for C7 at a concrete input: a single surface reporting a hit at
(2, 0) is selected, its data is returned, and its own distance is not beaten. -/
theorem c7_witness :
    ([⟨fun _ _ _ => some (2, 0, (1, 0)), shadowInteract⟩] : List Surface).get? 0
      = some ⟨fun _ _ _ => some (2, 0, (1, 0)), shadowInteract⟩ ∧
    (⟨fun _ _ _ => some (2, 0, (1, 0)), shadowInteract⟩ : Surface).intersect 0 0 (1, 0)
      = some (2, 0, (1, 0)) ∧
    Real.sqrt (((2 : ℝ) - 0) ^ 2 + ((0 : ℝ) - 0) ^ 2)
      ≤ Real.sqrt (((2 : ℝ) - 0) ^ 2 + ((0 : ℝ) - 0) ^ 2) := by
  have h := c7_nearest_hit [⟨fun _ _ _ => some (2, 0, (1, 0)), shadowInteract⟩]
    0 0 (1, 0) 0 ⟨fun _ _ _ => some (2, 0, (1, 0)), shadowInteract⟩ 2 0 (1, 0)
    (Real.sqrt (((2 : ℝ) - 0) ^ 2 + ((0 : ℝ) - 0) ^ 2)) rfl
  refine ⟨h.1, h.2.1, ?_⟩
  have h4 := (h.2.2.2 0 ⟨fun _ _ _ => some (2, 0, (1, 0)), shadowInteract⟩ rfl 2 0 (1, 0) rfl).1
  exact h4

/-- C9: for a circle of radius `r` at `(cx, cy)` and a unit-direction ray from
`(ox, oy)` whose line passes exactly through the center at parameter `t` ahead
of the origin (with the origin outside, `r < t`), the circle-ray routine
returns the near intersection `center - r·d`, which lies at distance `r` from
the center, lies on the ray at parameter `t - r > 0`, and carries the outward
unit normal `-d`, collinear with (point - center); and the routine returns
no-hit whenever the projection of the origin-to-center vector onto the
normalized ray direction is negative, or whenever the closest-approach
distance exceeds `r`. -/
theorem c9_circle_ray (cx cy r ox oy : ℝ) (d : ℝ × ℝ) (t : ℝ) :
    (d.1 ^ 2 + d.2 ^ 2 = 1 → cx = ox + t * d.1 → cy = oy + t * d.2 →
      0 < r → r < t →
      circleIntersectWithRay cx cy r ox oy d
        = some (cx - r * d.1, cy - r * d.2, (-d.1, -d.2)) ∧
      Real.sqrt ((cx - r * d.1 - cx) ^ 2 + (cy - r * d.2 - cy) ^ 2) = r ∧
      cx - r * d.1 = ox + (t - r) * d.1 ∧ cy - r * d.2 = oy + (t - r) * d.2 ∧
      0 < t - r ∧
      (-d.1) ^ 2 + (-d.2) ^ 2 = 1 ∧
      cx - r * d.1 - cx = r * (-d.1) ∧ cy - r * d.2 - cy = r * (-d.2)) ∧
    (∀ L rnx rny, L = Real.sqrt (d.1 ^ 2 + d.2 ^ 2) →
      rnx = d.1 / L → rny = d.2 / L →
      (cx - ox) * rnx + (cy - oy) * rny < 0 →
      circleIntersectWithRay cx cy r ox oy d = none) ∧
    (∀ L rnx rny proj clx cly dist,
      L = Real.sqrt (d.1 ^ 2 + d.2 ^ 2) → rnx = d.1 / L → rny = d.2 / L →
      proj = (cx - ox) * rnx + (cy - oy) * rny →
      clx = ox + rnx * proj → cly = oy + rny * proj →
      dist = Real.sqrt ((clx - cx) ^ 2 + (cly - cy) ^ 2) →
      r < dist → circleIntersectWithRay cx cy r ox oy d = none) := by
  refine ⟨?_, ?_, ?_⟩
  · intro h1 hcx hcy hr hrt
    subst hcx; subst hcy
    have htr : ¬ (t - r < 0) := by linarith
    refine ⟨?_, ?_, by ring, by ring, by linarith, by linear_combination h1,
      by ring, by ring⟩
    · simp only [circleIntersectWithRay, h1, Real.sqrt_one, div_one]
      rw [show (ox + t * d.1 - ox) * d.1 + (oy + t * d.2 - oy) * d.2 = t by
        linear_combination t * h1]
      rw [if_neg (show ¬ t < 0 by linarith)]
      rw [show (ox + d.1 * t - (ox + t * d.1)) ^ 2 + (oy + d.2 * t - (oy + t * d.2)) ^ 2
          = 0 by ring]
      rw [Real.sqrt_zero]
      rw [if_neg (not_lt.mpr hr.le)]
      rw [show r ^ 2 - (0 : ℝ) ^ 2 = r ^ 2 by ring, Real.sqrt_sq hr.le]
      rw [show (ox + d.1 * t - d.1 * r - ox) * d.1 + (oy + d.2 * t - d.2 * r - oy) * d.2
          = t - r by linear_combination (t - r) * h1]
      simp only [if_neg htr]
      rw [show (ox + d.1 * t - d.1 * r - ox) * d.1 + (oy + d.2 * t - d.2 * r - oy) * d.2
          = t - r by linear_combination (t - r) * h1]
      rw [if_neg htr]
      simp only [Option.some.injEq, Prod.mk.injEq]
      refine ⟨by ring, by ring, ?_, ?_⟩
      · field_simp
        ring
      · field_simp
        ring
    · rw [show (ox + t * d.1 - r * d.1 - (ox + t * d.1)) ^ 2
          + (oy + t * d.2 - r * d.2 - (oy + t * d.2)) ^ 2 = r ^ 2 by
        linear_combination (r ^ 2) * h1]
      exact Real.sqrt_sq hr.le
  · intro L rnx rny hL hx hy hneg
    subst hL; subst hx; subst hy
    simp only [circleIntersectWithRay]
    rw [if_pos hneg]
  · intro L rnx rny proj clx cly dist hL hx hy hproj hclx hcly hdist hfar
    subst hL; subst hx; subst hy; subst hproj; subst hclx; subst hcly; subst hdist
    simp only [circleIntersectWithRay]
    by_cases hp : (cx - ox) * (d.1 / Real.sqrt (d.1 ^ 2 + d.2 ^ 2))
        + (cy - oy) * (d.2 / Real.sqrt (d.1 ^ 2 + d.2 ^ 2)) < 0
    · rw [if_pos hp]
    · rw [if_neg hp, if_pos hfar]

/-- Witness for C9 at concrete inputs: the unit circle at (2,0) with the
horizontal unit ray from the origin is hit at (1, 0) with outward normal
(-1, 0) at distance 1 from the center, and a circle centered behind the ray
origin yields no hit. -/
theorem c9_witness :
    circleIntersectWithRay 2 0 1 0 0 (1, 0)
      = some (2 - 1 * 1, 0 - 1 * 0, (-1, -0)) ∧
    Real.sqrt ((2 - 1 * 1 - 2) ^ 2 + (0 - 1 * 0 - 0) ^ 2) = 1 ∧
    circleIntersectWithRay (-2) 0 1 0 0 (1, 0) = none := by
  have h1 := (c9_circle_ray 2 0 1 0 0 (1, 0) 2).1 (by norm_num) (by norm_num)
    (by norm_num) (by norm_num) (by norm_num)
  have h2 := (c9_circle_ray (-2) 0 1 0 0 (1, 0) 0).2.1
    (Real.sqrt ((1 : ℝ) ^ 2 + (0 : ℝ) ^ 2)) (1 / Real.sqrt ((1 : ℝ) ^ 2 + (0 : ℝ) ^ 2))
    (0 / Real.sqrt ((1 : ℝ) ^ 2 + (0 : ℝ) ^ 2)) (by norm_num) rfl rfl
    (by rw [show (1 : ℝ) ^ 2 + (0 : ℝ) ^ 2 = 1 by norm_num, Real.sqrt_one]; norm_num)
  exact ⟨h1.1, h1.2.1, h2⟩

/-- Unfolding of `segCount` on a constructed beam tree. -/
theorem segCount_mk (b : Beam) (segs : List Segment) (cs : List BeamTree) :
    segCount (BeamTree.mk b segs cs) = segs.length + (cs.map segCount).sum := by
  rw [segCount]
  rw [List.attach_map_coe]

/-- The surface selected by the nearest-hit resolution is the collection entry
at the recorded index. -/
theorem nearestHit_get (objs : List Surface) (x y : ℝ) (d : ℝ × ℝ)
    (k : ℕ) (s : Surface) (hx hy : ℝ) (n : ℝ × ℝ) (dist : ℝ)
    (h : nearestHit objs x y d = some (k, s, hx, hy, n, dist)) :
    objs.get? k = some s ∧ s.intersect x y d = some (hx, hy, n) := by
  have hbase : NearestInv x y d objs 0 none := by
    constructor
    · intro _ j hj
      exact absurd hj (Nat.not_lt_zero j)
    · intro k0 s0 hx0 hy0 n0 dist0 hb
      cases hb
  have hinv := nearestHitAux_inv x y d objs objs 0 rfl none hbase
  obtain ⟨_, hg, hi2, _, _⟩ := hinv.2 k s hx hy n dist h
  exact ⟨hg, hi2⟩

/-- A child beam built from an interaction result carries the parent's count
plus one and the result's color (defaulting to the parent's). -/
theorem resultToChildBeam_spec (cfg : Config) (b : Beam) (hx hy : ℝ)
    (r : InteractionResult) (c : Beam)
    (h : resultToChildBeam cfg b hx hy r = some c) :
    c.count = b.count + 1 ∧ c.color = childColor r b.color := by
  obtain ⟨ty, dirn, col, inten⟩ := r
  unfold resultToChildBeam at h
  cases ty <;> simp_all [childColor] <;> rw [h.symm] <;> exact ⟨rfl, rfl⟩

/-- The color produced by the filter mixing chain has all channels in range
when both input colors do. -/
theorem filteredColor_valid (fc c : Color) (hfc : validColor fc)
    (hc : validColor c) : validColor (filteredColor fc c) := by
  obtain ⟨ha1, ha2, ha3, ha4, ha5, ha6⟩ := hc
  obtain ⟨hb1, hb2, hb3, hb4, hb5, hb6⟩ := hfc
  unfold filteredColor
  split_ifs <;>
    first
      | exact ⟨ha1, ha2, ha3, ha4, ha5, ha6⟩
      | exact ⟨hb1, hb2, hb3, hb4, hb5, hb6⟩
      | decide
      | exact ⟨le_min ha1 hb1, (min_le_left _ _).trans ha2,
          le_min ha3 hb3, (min_le_left _ _).trans ha4,
          le_min ha5 hb5, (min_le_left _ _).trans ha6⟩

/-- The color produced by the filter mixing chain is never WHITE when the
incoming color is a valid non-WHITE color (and the filter color is valid). -/
theorem filteredColor_ne_white (fc c : Color) (hfc : validColor fc)
    (hc : validColor c) (hw : c ≠ WHITE) : filteredColor fc c ≠ WHITE := by
  obtain ⟨ha1, ha2, ha3, ha4, ha5, ha6⟩ := hc
  unfold filteredColor
  split_ifs <;>
    first
      | exact hw
      | decide
      | (intro heq
         apply hw
         have e1 : min c.1 fc.1 = 255 := congrArg Prod.fst heq
         have e2 : min c.2.1 fc.2.1 = 255 := congrArg (fun z => z.2.1) heq
         have e3 : min c.2.2 fc.2.2 = 255 := congrArg (fun z => z.2.2) heq
         have m1 := min_le_left c.1 fc.1
         have m2 := min_le_left c.2.1 fc.2.1
         have m3 := min_le_left c.2.2 fc.2.2
         rw [e1] at m1
         rw [e2] at m2
         rw [e3] at m3
         have hf : c.1 = 255 ∧ c.2.1 = 255 ∧ c.2.2 = 255 := ⟨by omega, by omega, by omega⟩
         obtain ⟨f1, f2, f3⟩ := hf
         show c = ((255 : ℤ), (255 : ℤ), (255 : ℤ))
         rw [Prod.ext_iff, Prod.ext_iff]
         exact ⟨f1, f2, f3⟩)
      | simp_all [RED, GREEN, BLUE, WHITE]

/-- The mirror's light response obeys the game's interaction discipline. -/
theorem mirrorInteract_tame : TameInteract mirrorInteract := by
  intro c p d n
  refine ⟨by simp [mirrorInteract], ?_, ?_, ?_⟩
  · intro hv r hr
    simp [mirrorInteract] at hr
    subst hr
    simpa [childColor] using hv
  · intro hv hw
    refine ⟨by simp [mirrorInteract], ?_⟩
    intro r hr
    simp [mirrorInteract] at hr
    subst hr
    simpa [childColor] using hw
  · intro _ hlen
    simp [mirrorInteract] at hlen

/-- The prism's light response obeys the game's interaction discipline. -/
theorem prismInteract_tame : TameInteract prismInteract := by
  intro c p d n
  unfold prismInteract
  by_cases hw : c = WHITE
  · subst hw
    rw [if_pos rfl]
    by_cases hd : d.1 * n.1 + d.2 * n.2 < 0
    · rw [if_pos hd]
      refine ⟨by simp, ?_, ?_, ?_⟩
      · intro hv r hr
        simp at hr
        rcases hr with rfl | rfl | rfl <;> simp [childColor] <;> decide
      · intro _ hne
        exact absurd rfl hne
      · intro _ _ r hr
        simp at hr
        rcases hr with rfl | rfl | rfl <;> simp [childColor] <;> decide
    · rw [if_neg hd]
      refine ⟨by simp, ?_, ?_, ?_⟩
      · intro hv r hr
        simp at hr
        subst hr
        simpa [childColor] using hv
      · intro _ hne
        exact absurd rfl hne
      · intro _ hlen
        simp at hlen
  · rw [if_neg hw]
    refine ⟨by simp, ?_, ?_, ?_⟩
    · intro hv r hr
      simp at hr
      subst hr
      simpa [childColor] using hv
    · intro hv _
      refine ⟨by simp, ?_⟩
      intro r hr
      simp at hr
      subst hr
      simpa [childColor] using hw
    · intro hww _
      exact absurd hww hw

/-- A color filter's light response obeys the game's interaction discipline
provided its own color has all channels in range. -/
theorem colorFilterInteract_tame (fc : Color) (hfc : validColor fc) :
    TameInteract (colorFilterInteract fc) := by
  intro c p d n
  refine ⟨by simp [colorFilterInteract], ?_, ?_, ?_⟩
  · intro hv r hr
    simp [colorFilterInteract] at hr
    subst hr
    simpa [childColor] using filteredColor_valid fc c hfc hv
  · intro hv hw
    refine ⟨by simp [colorFilterInteract], ?_⟩
    intro r hr
    simp [colorFilterInteract] at hr
    subst hr
    simpa [childColor] using filteredColor_ne_white fc c hfc hv hw
  · intro _ hlen
    simp [colorFilterInteract] at hlen

/-- A checkpoint's light response (its pure result list) obeys the game's
interaction discipline, for any checkpoint state. -/
theorem checkpointInteract_tame (cp : Checkpoint) :
    TameInteract (fun c _p d _n => (checkpointInteract cp c d).2) := by
  intro c p d n
  refine ⟨by simp [checkpointInteract], ?_, ?_, ?_⟩
  · intro hv r hr
    simp [checkpointInteract] at hr
    subst hr
    simpa [childColor] using hv
  · intro hv hw
    refine ⟨by simp [checkpointInteract], ?_⟩
    intro r hr
    simp [checkpointInteract] at hr
    subst hr
    simpa [childColor] using hw
  · intro _ hlen
    simp [checkpointInteract] at hlen

/-- The shadow creature's light response obeys the game's interaction
discipline: it absorbs everything. -/
theorem shadowInteract_tame : TameInteract shadowInteract := by
  intro c p d n
  refine ⟨by simp [shadowInteract], ?_, ?_, ?_⟩
  · intro hv r hr
    simp [shadowInteract] at hr
    subst hr
    simpa [childColor] using hv
  · intro hv hw
    refine ⟨by simp [shadowInteract], ?_⟩
    intro r hr
    simp [shadowInteract] at hr
    subst hr
    simpa [childColor] using hw
  · intro _ hlen
    simp [shadowInteract] at hlen

/-- The central bound: over a collection of surfaces obeying the interaction
discipline, a beam with a valid color and remaining budget emits at most
`3 * (budget + 1 - count)` segments in its whole subtree when WHITE, and at
most `budget + 1 - count` when already colored (a colored beam never
branches).  Proved by induction on the remaining budget, mirroring the
recursion of `trace`. -/
theorem segCount_trace_le (cfg : Config) (objs : List Surface)
    (hTame : ∀ s ∈ objs, TameSurface s) :
    ∀ (fuel : ℕ) (b : Beam), cfg.maxReflections - b.count = fuel →
      validColor b.color → b.count ≤ cfg.maxReflections →
      segCount (trace cfg objs b)
        ≤ (if b.color = WHITE then 3 else 1) * (cfg.maxReflections + 1 - b.count) := by
  intro fuel
  induction fuel using Nat.strong_induction_on with
  | _ fuel ih =>
    intro b hfuel hvalid hle
    by_cases hb : cfg.maxReflections ≤ b.count
    · rw [trace_budget cfg objs b hb, segCount_mk]
      simp only [List.length_cons, List.length_nil, List.map_nil, List.sum_nil]
      split_ifs <;> omega
    · push_neg at hb
      cases hnh : nearestHit objs b.x b.y b.dir with
      | none =>
        rw [trace_nohit cfg objs b (by omega) hnh, segCount_mk]
        simp only [List.length_cons, List.length_nil, List.map_nil, List.sum_nil]
        split_ifs <;> omega
      | some v =>
        obtain ⟨k, s, hx, hy, n, dist⟩ := v
        have hmem : s ∈ objs :=
          List.get?_mem (nearestHit_get objs b.x b.y b.dir k s hx hy n dist hnh).1
        obtain ⟨hlen3, hval, hnw, hwsplit⟩ := hTame s hmem b.color (hx, hy) b.dir n
        rw [trace_hit cfg objs b k s hx hy n dist (by omega) hnh, segCount_mk]
        rw [List.map_map]
        have hchild : ∀ c ∈ (s.interact b.color (hx, hy) b.dir n).filterMap
            (resultToChildBeam cfg b hx hy),
            segCount (trace cfg objs c) ≤ (if c.color = WHITE then 3 else 1)
              * (cfg.maxReflections - b.count) ∧
            (2 ≤ (s.interact b.color (hx, hy) b.dir n).length → b.color = WHITE →
              c.color ≠ WHITE) ∧
            (b.color ≠ WHITE → c.color ≠ WHITE) := by
          intro c hc
          rw [List.mem_filterMap] at hc
          obtain ⟨r, hrmem, hr⟩ := hc
          obtain ⟨hcount, hcolor⟩ := resultToChildBeam_spec cfg b hx hy r c hr
          have hcv : validColor c.color := by
            rw [hcolor]
            exact hval hvalid r hrmem
          refine ⟨?_, ?_, ?_⟩
          · have hih := ih (cfg.maxReflections - c.count) (by omega) c rfl hcv (by omega)
            have harith : cfg.maxReflections + 1 - c.count
                = cfg.maxReflections - b.count := by omega
            rw [harith] at hih
            exact hih
          · intro h2 hwc
            rw [hcolor]
            exact hwsplit hwc h2 r hrmem
          · intro hwc
            rw [hcolor]
            exact (hnw hvalid hwc).2 r hrmem
        have hcblen : ((s.interact b.color (hx, hy) b.dir n).filterMap
            (resultToChildBeam cfg b hx hy)).length
            ≤ (s.interact b.color (hx, hy) b.dir n).length :=
          List.length_filterMap_le _ _
        simp only [List.length_cons, List.length_nil]
        by_cases hwc : b.color = WHITE
        · rw [if_pos hwc]
          by_cases h2 : 2 ≤ (s.interact b.color (hx, hy) b.dir n).length
          · have hb1 : ∀ x ∈ (((s.interact b.color (hx, hy) b.dir n).filterMap
                (resultToChildBeam cfg b hx hy)).attach.map
                  fun c => segCount (trace cfg objs c.1)),
                x ≤ cfg.maxReflections - b.count := by
              intro x hxm
              rw [List.mem_map] at hxm
              obtain ⟨cc, _, rfl⟩ := hxm
              obtain ⟨hbound, hsplit2, _⟩ := hchild cc.1 cc.2
              rw [if_neg (hsplit2 h2 hwc)] at hbound
              simpa using hbound
            have hsum := List.sum_le_card_nsmul _ _ hb1
            rw [List.length_map, List.length_attach, smul_eq_mul] at hsum
            have hsum3 : (((s.interact b.color (hx, hy) b.dir n).filterMap
                (resultToChildBeam cfg b hx hy)).attach.map
                  fun c => segCount (trace cfg objs c.1)).sum
                ≤ 3 * (cfg.maxReflections - b.count) := by
              calc _ ≤ _ := hsum
                _ ≤ 3 * (cfg.maxReflections - b.count) :=
                  Nat.mul_le_mul_right _ (le_trans hcblen hlen3)
            simp only [Function.comp_def]
            omega
          · have hb1 : ∀ x ∈ (((s.interact b.color (hx, hy) b.dir n).filterMap
                (resultToChildBeam cfg b hx hy)).attach.map
                  fun c => segCount (trace cfg objs c.1)),
                x ≤ 3 * (cfg.maxReflections - b.count) := by
              intro x hxm
              rw [List.mem_map] at hxm
              obtain ⟨cc, _, rfl⟩ := hxm
              obtain ⟨hbound, _, _⟩ := hchild cc.1 cc.2
              calc segCount (trace cfg objs cc.1)
                  ≤ (if cc.1.color = WHITE then 3 else 1)
                    * (cfg.maxReflections - b.count) := hbound
                _ ≤ 3 * (cfg.maxReflections - b.count) := by
                  split_ifs <;> omega
            have hsum := List.sum_le_card_nsmul _ _ hb1
            rw [List.length_map, List.length_attach, smul_eq_mul] at hsum
            have hlen1 : ((s.interact b.color (hx, hy) b.dir n).filterMap
                (resultToChildBeam cfg b hx hy)).length ≤ 1 := by omega
            have hsum3 : (((s.interact b.color (hx, hy) b.dir n).filterMap
                (resultToChildBeam cfg b hx hy)).attach.map
                  fun c => segCount (trace cfg objs c.1)).sum
                ≤ 3 * (cfg.maxReflections - b.count) := by
              calc _ ≤ _ := hsum
                _ ≤ 1 * (3 * (cfg.maxReflections - b.count)) :=
                  Nat.mul_le_mul_right _ hlen1
                _ = 3 * (cfg.maxReflections - b.count) := by omega
            simp only [Function.comp_def]
            omega
        · rw [if_neg hwc]
          obtain ⟨hl1, _⟩ := hnw hvalid hwc
          have hb1 : ∀ x ∈ (((s.interact b.color (hx, hy) b.dir n).filterMap
              (resultToChildBeam cfg b hx hy)).attach.map
                fun c => segCount (trace cfg objs c.1)),
              x ≤ cfg.maxReflections - b.count := by
            intro x hxm
            rw [List.mem_map] at hxm
            obtain ⟨cc, _, rfl⟩ := hxm
            obtain ⟨hbound, _, hnwchild⟩ := hchild cc.1 cc.2
            rw [if_neg (hnwchild hwc)] at hbound
            simpa using hbound
          have hsum := List.sum_le_card_nsmul _ _ hb1
          rw [List.length_map, List.length_attach, smul_eq_mul] at hsum
          have hsum1 : (((s.interact b.color (hx, hy) b.dir n).filterMap
              (resultToChildBeam cfg b hx hy)).attach.map
                fun c => segCount (trace cfg objs c.1)).sum
              ≤ cfg.maxReflections - b.count := by
            calc _ ≤ _ := hsum
              _ ≤ 1 * (cfg.maxReflections - b.count) :=
                Nat.mul_le_mul_right _ (le_trans hcblen hl1)
              _ = cfg.maxReflections - b.count := by omega
          simp only [Function.comp_def]
          omega

/-- C8: over any collection of surfaces obeying the game's interaction
discipline (which all five variants do, per the `..._tame` lemmas), a root beam
with a valid color and reflection count 0 emits a finite segment list — the
trace is a total function — whose total number of segments, and hence in
particular its number of leaf/terminal segments, is at most
(maximum reflection budget + 1) × 3, where 3 is the maximum number of results a
single interaction can return (the prism split). -/
theorem c8_segment_bound (cfg : Config) (objs : List Surface) (b : Beam)
    (hTame : ∀ s ∈ objs, TameSurface s) (hvalid : validColor b.color)
    (hroot : b.count = 0) :
    segCount (trace cfg objs b) ≤ (cfg.maxReflections + 1) * 3 ∧
    (∀ s ∈ objs, ∀ c p d n, (s.interact c p d n).length ≤ 3) := by
  constructor
  · have h := segCount_trace_le cfg objs hTame (cfg.maxReflections - b.count) b rfl
      hvalid (by omega)
    rw [hroot] at h
    split_ifs at h <;> omega
  · intro s hs c p d n
    exact (hTame s hs c p d n).1

/-- Witness for C8 at a concrete input: with budget 1 and no surfaces, the
WHITE root beam's trace has at most (1 + 1) × 3 = 6 segments. -/
theorem c8_witness :
    segCount (trace ⟨100, 0.9, 1⟩ [] ⟨0, 0, (1, 0), WHITE, 1, 0⟩) ≤ (1 + 1) * 3 :=
  (c8_segment_bound ⟨100, 0.9, 1⟩ [] ⟨0, 0, (1, 0), WHITE, 1, 0⟩
    (by simp) (by decide) rfl).1
